import Mathlib

/-!
Verification of the SBV → SRT subtitle converter (`pkg/sbv/convert.go`).

Go strings are modelled as lists of characters (`Str := List Char`); Go
`time.Duration` is modelled as `Int` nanoseconds.  All separators split on
in the source (`,` `:` `.` `\n`) are single characters, so Go
`strings.Split` is modelled by `splitOnChar`.  `formatSRTTime` in the source
computes `int(d.Hours())` etc. through float64; on every duration this
program ever formats in the verified statements (non-negative, below 2^53
nanoseconds) that float computation coincides with truncating integer
division, which is what `Int.tdiv`/`Int.tmod` (Go's `/` and `%` semantics)
denote here.  `strconv.Atoi`'s overflow error (ErrRange) is not modelled:
for this program both the overflow error and the modelled over-wide value
lead to a parse error, only the message differs.  `bufio.Scanner`'s
maximum token size (lines beyond 64 KiB make the scan itself fail) is
likewise not modelled.
-/

namespace SbvToSrt

/-- Go strings, as sequences of characters. -/
abbrev Str := List Char

/-- Go `strings.Split(s, sep)` for a one-character separator `sep`. -/
def splitOnChar (sep : Char) : Str → List Str
  | [] => [[]]
  | c :: cs =>
    if c = sep then [] :: splitOnChar sep cs
    else
      match splitOnChar sep cs with
      | [] => [[c]]
      | h :: t => (c :: h) :: t

/-- Go `unicode.IsSpace`: the White_Space property. -/
def goIsSpace (c : Char) : Bool :=
  c = '\t' || c = '\n' || c = '\x0B' || c = '\x0C' || c = '\r' || c = ' ' ||
  c = '\u0085' || c = ' ' || c = ' ' ||
  (' ' ≤ c && c ≤ ' ') ||
  c = ' ' || c = ' ' || c = ' ' || c = ' ' || c = '　'

/-- Go `strings.TrimSpace`: drop whitespace from both ends. -/
def trimSpace (s : Str) : Str :=
  ((s.dropWhile goIsSpace).reverse.dropWhile goIsSpace).reverse

/-- Model of `dropCR` from `bufio.ScanLines`: strip one trailing carriage return. -/
def dropCR (s : Str) : Str :=
  if s.getLast? = some '\r' then s.dropLast else s

/-- The tokens produced by `bufio.Scanner` with `bufio.ScanLines`:
newline-separated lines, no empty token after a terminal newline, each
token stripped of one trailing `\r`. -/
def scanLines (s : Str) : List Str :=
  if s = [] then []
  else
    let toks := splitOnChar '\n' s
    (if s.getLast? = some '\n' then toks.dropLast else toks).map dropCR

/-- Decimal value of a digit string (the accumulator loop inside
`strconv.ParseInt` for base 10). -/
def digitsToNat (s : Str) : Nat :=
  s.foldl (fun acc c => acc * 10 + (c.toNat - 48)) 0

/-- Go `strconv.Atoi`: optional single leading sign, then one or more
decimal digits; anything else is an error.  (Overflow is not modelled,
see the file comment.) -/
def goAtoi (s : Str) : Except Str Int :=
  match s with
  | [] => Except.error s
  | c :: rest =>
    if c = '+' then
      if rest ≠ [] ∧ rest.all Char.isDigit then Except.ok (digitsToNat rest)
      else Except.error s
    else if c = '-' then
      if rest ≠ [] ∧ rest.all Char.isDigit then Except.ok (-(digitsToNat rest : Int))
      else Except.error s
    else
      if (c :: rest).all Char.isDigit then Except.ok (digitsToNat (c :: rest))
      else Except.error s

/-- The character of a decimal digit. -/
def digitChar (d : Nat) : Char :=
  match d with
  | 0 => '0' | 1 => '1' | 2 => '2' | 3 => '3' | 4 => '4'
  | 5 => '5' | 6 => '6' | 7 => '7' | 8 => '8' | _ => '9'

/-- Decimal digits of a natural number, fuelled so that the definition is
structurally recursive (the fuel in `natToDigits` is always sufficient). -/
def natToDigitsAux : Nat → Nat → Str
  | 0, _ => []
  | Nat.succ fuel, n =>
    if n < 10 then [digitChar n]
    else natToDigitsAux fuel (n / 10) ++ [digitChar (n % 10)]

/-- Decimal digits of a natural number (Go `strconv` formatting, no sign). -/
def natToDigits (n : Nat) : Str :=
  natToDigitsAux (n + 1) n

/-- Go `strconv.Itoa` / `fmt` `%d` of an integer. -/
def intToStr (i : Int) : Str :=
  if i < 0 then '-' :: natToDigits i.natAbs else natToDigits i.toNat

/-- Go `fmt` `%0*d`: decimal digits zero-padded (after the sign) to the
given total width. -/
def padZeroInt (width : Nat) (i : Int) : Str :=
  if i < 0 then
    '-' :: (List.replicate (width - 1 - (natToDigits i.natAbs).length) '0' ++
            natToDigits i.natAbs)
  else
    List.replicate (width - (natToDigits i.toNat).length) '0' ++ natToDigits i.toNat

/-- Model of `formatSRTTime` (convert.go:158-165): render a duration (nanoseconds) as
`HH:MM:SS,mmm` using `%02d:%02d:%02d,%03d`. -/
def formatSRTTime (d : Int) : Str :=
  padZeroInt 2 (d.tdiv 3600000000000) ++ ':' ::
  (padZeroInt 2 ((d.tdiv 60000000000).tmod 60) ++ ':' ::
   (padZeroInt 2 ((d.tdiv 1000000000).tmod 60) ++ ',' ::
    padZeroInt 3 ((d.tdiv 1000000).tmod 1000)))

/-- Model of `isTimestampLine` (convert.go:168-171): contains a comma and a colon. -/
def isTimestampLine (line : Str) : Bool :=
  line.contains ',' && line.contains ':'

/-- Model of `parseTime` (convert.go:224-274): parse `H:MM:SS.mmm` into nanoseconds,
with the source's field validations and error messages. -/
def parseTime (timeStr : Str) : Except Str Int :=
  match splitOnChar ':' timeStr with
  | [p0, p1, p2] =>
    match goAtoi p0 with
    | Except.error _ => Except.error ("invalid hours: ".data ++ p0)
    | Except.ok hours =>
      if hours < 0 ∨ hours > 23 then
        Except.error ("hours out of range (0-23): ".data ++ intToStr hours)
      else
        match goAtoi p1 with
        | Except.error _ => Except.error ("invalid minutes: ".data ++ p1)
        | Except.ok minutes =>
          if minutes < 0 ∨ minutes > 59 then
            Except.error ("minutes out of range (0-59): ".data ++ intToStr minutes)
          else
            match splitOnChar '.' p2 with
            | [s0, s1] =>
              match goAtoi s0 with
              | Except.error _ => Except.error ("invalid seconds: ".data ++ s0)
              | Except.ok seconds =>
                if seconds < 0 ∨ seconds > 59 then
                  Except.error ("seconds out of range (0-59): ".data ++ intToStr seconds)
                else
                  match goAtoi s1 with
                  | Except.error _ => Except.error ("invalid milliseconds: ".data ++ s1)
                  | Except.ok milliseconds =>
                    if milliseconds < 0 ∨ milliseconds > 999 then
                      Except.error ("milliseconds out of range (0-999): ".data ++
                                    intToStr milliseconds)
                    else
                      Except.ok (hours * 3600000000000 + minutes * 60000000000 +
                                 seconds * 1000000000 + milliseconds * 1000000)
            | _ => Except.error ("invalid seconds format: ".data ++ p2)
  | _ => Except.error ("invalid time format: ".data ++ timeStr)

/-- Model of `parseTimestamps` (convert.go:204-221): split the line on `,` into
exactly two time values and parse each (after `strings.TrimSpace`). -/
def parseTimestamps (timestampLine : Str) : Except Str (Int × Int) :=
  match splitOnChar ',' timestampLine with
  | [p0, p1] =>
    match parseTime (trimSpace p0) with
    | Except.error e => Except.error ("failed to parse start time: ".data ++ e)
    | Except.ok startTime =>
      match parseTime (trimSpace p1) with
      | Except.error e => Except.error ("failed to parse end time: ".data ++ e)
      | Except.ok endTime => Except.ok (startTime, endTime)
  | _ => Except.error ("invalid timestamp format: ".data ++ timestampLine)

/-- A parsed subtitle record (`Subtitle` struct, convert.go:15-19). -/
structure Subtitle where
  StartTime : Int
  EndTime : Int
  Text : Str
  deriving DecidableEq

/-- Model of `parseSubtitleBlock` (convert.go:174-201): parse the timestamp line and
join the immediately following non-blank lines with `\n` as the text.  The
source also returns the index one past the consumed text lines; the
caller-side remainder `rest.dropWhile (fun l => !l.isEmpty)` appears at
the call site in `parseLines` instead. -/
def parseSubtitleBlock (timestampLine : Str) (rest : List Str) : Except Str Subtitle :=
  match parseTimestamps timestampLine with
  | Except.error e => Except.error ("failed to parse timestamps: ".data ++ e)
  | Except.ok (startTime, endTime) =>
    Except.ok { StartTime := startTime, EndTime := endTime,
                Text := List.intercalate ['\n'] (rest.takeWhile (fun l => !l.isEmpty)) }

/-- The scanning loop of `ParseFromReader` (convert.go:109-126) over the
already-trimmed lines, fuelled so that the recursion is structural (the
fuel in `parseLines` is always sufficient): skip blank lines, parse a
block at each line that passes the timestamp heuristic, silently skip
every other line; the first block error aborts the whole parse. -/
def parseLinesAux : Nat → List Str → Except Str (List Subtitle)
  | _, [] => Except.ok []
  | 0, _ :: _ => Except.ok []
  | Nat.succ fuel, line :: rest =>
    if line = [] then parseLinesAux fuel rest
    else if isTimestampLine line then
      match parseSubtitleBlock line rest with
      | Except.error e => Except.error ("failed to parse subtitle block: ".data ++ e)
      | Except.ok sub =>
        match parseLinesAux fuel (rest.dropWhile (fun l => !l.isEmpty)) with
        | Except.error e => Except.error e
        | Except.ok subs => Except.ok (sub :: subs)
    else parseLinesAux fuel rest

/-- The scanning loop of `ParseFromReader` over the already-trimmed lines. -/
def parseLines (lines : List Str) : Except Str (List Subtitle) :=
  parseLinesAux lines.length lines

/-- Model of `ParseFromReader` (convert.go:96-129): scan the input into lines,
`strings.TrimSpace` each line, then run the block-scanning loop. -/
def ParseFromReader (s : Str) : Except Str (List Subtitle) :=
  parseLines ((scanLines s).map trimSpace)

/-- One SRT cue block emitted per iteration of the loop in `ConvertToSRT`
(convert.go:58-74): sequence number `i+1`, timestamp line, text, blank line. -/
def srtBlock (i : Nat) (sub : Subtitle) : Str :=
  intToStr ((i : Int) + 1) ++ '\n' ::
  (formatSRTTime sub.StartTime ++ " --> ".data ++ formatSRTTime sub.EndTime ++ '\n' ::
   (sub.Text ++ "\n\n".data))

/-- The loop of `ConvertToSRT`, carrying the 0-based index. -/
def convertLoop : Nat → List Subtitle → Str
  | _, [] => []
  | i, sub :: rest => srtBlock i sub ++ convertLoop (i + 1) rest

/-- Model of `ConvertToSRT` (convert.go:54-77). -/
def ConvertToSRT (subs : List Subtitle) : Str :=
  convertLoop 0 subs

/-- Replace the SRT millisecond delimiter `,` by the SBV one `.`, so the
four numeric fields of an SRT timestamp can be fed back to `parseTime`. -/
def commaToDot (s : Str) : Str :=
  s.map (fun c => if c = ',' then '.' else c)

/-- A duration assembled by `parseTime` from in-range fields. -/
def GoodTime (d : Int) : Prop :=
  ∃ h m s ms : Int,
    0 ≤ h ∧ h ≤ 23 ∧ 0 ≤ m ∧ m ≤ 59 ∧ 0 ≤ s ∧ s ≤ 59 ∧ 0 ≤ ms ∧ ms ≤ 999 ∧
    d = h * 3600000000000 + m * 60000000000 + s * 1000000000 + ms * 1000000

/-! ## Basic lemmas about the scanning loop -/

theorem length_dropWhile_le {α : Type} (p : α → Bool) (l : List α) :
    (l.dropWhile p).length ≤ l.length := by
  induction l with
  | nil => simp [List.dropWhile]
  | cons a l ih =>
    simp only [List.dropWhile]
    cases p a
    · simp
    · simp only [List.length_cons]
      omega

theorem parseLinesAux_nil (fuel : Nat) : parseLinesAux fuel [] = Except.ok [] := by
  cases fuel <;> rfl

theorem parseLinesAux_fuel :
    ∀ (f1 : Nat) (lines : List Str) (f2 : Nat), lines.length ≤ f1 → lines.length ≤ f2 →
      parseLinesAux f1 lines = parseLinesAux f2 lines := by
  intro f1
  induction f1 with
  | zero =>
    intro lines f2 h1 _
    have : lines = [] := by
      cases lines
      · rfl
      · simp at h1
    subst this
    rw [parseLinesAux_nil, parseLinesAux_nil]
  | succ g ih =>
    intro lines f2 h1 h2
    cases lines with
    | nil => rw [parseLinesAux_nil, parseLinesAux_nil]
    | cons line rest =>
      cases f2 with
      | zero => simp at h2
      | succ g2 =>
        simp only [List.length_cons] at h1 h2
        have hr1 : rest.length ≤ g := by omega
        have hr2 : rest.length ≤ g2 := by omega
        have hd1 : (rest.dropWhile (fun l => !l.isEmpty)).length ≤ g := by
          have := length_dropWhile_le (fun l => !l.isEmpty) rest
          omega
        have hd2 : (rest.dropWhile (fun l => !l.isEmpty)).length ≤ g2 := by
          have := length_dropWhile_le (fun l => !l.isEmpty) rest
          omega
        simp only [parseLinesAux]
        rw [ih rest g2 hr1 hr2, ih (rest.dropWhile (fun l => !l.isEmpty)) g2 hd1 hd2]

theorem parseLines_nil : parseLines [] = Except.ok [] := rfl

theorem parseLines_cons (line : Str) (rest : List Str) :
    parseLines (line :: rest) =
      if line = [] then parseLines rest
      else if isTimestampLine line then
        match parseSubtitleBlock line rest with
        | Except.error e => Except.error ("failed to parse subtitle block: ".data ++ e)
        | Except.ok sub =>
          match parseLines (rest.dropWhile (fun l => !l.isEmpty)) with
          | Except.error e => Except.error e
          | Except.ok subs => Except.ok (sub :: subs)
      else parseLines rest := by
  have hd : (rest.dropWhile (fun l => !l.isEmpty)).length ≤ rest.length :=
    length_dropWhile_le _ _
  simp only [parseLines, List.length_cons, parseLinesAux]
  rw [parseLinesAux_fuel rest.length (rest.dropWhile (fun l => !l.isEmpty))
        (rest.dropWhile (fun l => !l.isEmpty)).length hd le_rfl]

theorem isTimestampLine_ne_nil {line : Str} (h : isTimestampLine line = true) :
    line ≠ [] := by
  intro hnil
  subst hnil
  simp [isTimestampLine, List.contains] at h

/-- A line failing the timestamp heuristic is skipped by the scan. -/
theorem parseLines_skip (line : Str) (rest : List Str)
    (h : isTimestampLine line = false) :
    parseLines (line :: rest) = parseLines rest := by
  rw [parseLines_cons]
  by_cases hnil : line = []
  · simp [hnil]
  · simp [hnil, h]

/-- Unfolding of the scan at a timestamp line whose timestamps fail to parse. -/
theorem parseLines_cons_error (line : Str) (rest : List Str) (e : Str)
    (h : isTimestampLine line = true) (he : parseTimestamps line = Except.error e) :
    parseLines (line :: rest) =
      Except.error ("failed to parse subtitle block: failed to parse timestamps: ".data ++ e) := by
  rw [parseLines_cons]
  simp only [isTimestampLine_ne_nil h, if_false, h, if_true, parseSubtitleBlock, he]
  rfl

/-- Unfolding of the scan at a timestamp line whose timestamps parse. -/
theorem parseLines_cons_ok (line : Str) (rest : List Str) (st en : Int)
    (h : isTimestampLine line = true) (hok : parseTimestamps line = Except.ok (st, en)) :
    parseLines (line :: rest) =
      match parseLines (rest.dropWhile (fun l => !l.isEmpty)) with
      | Except.error e => Except.error e
      | Except.ok subs =>
        Except.ok ({ StartTime := st, EndTime := en,
                     Text := List.intercalate ['\n']
                       (rest.takeWhile (fun l => !l.isEmpty)) } :: subs) := by
  rw [parseLines_cons]
  simp only [isTimestampLine_ne_nil h, if_false, h, if_true, parseSubtitleBlock, hok]

/-- Every list whose lines all fail the timestamp heuristic parses to the
empty record list. -/
theorem parseLines_all_skip (lines : List Str)
    (h : ∀ l ∈ lines, isTimestampLine l = false) :
    parseLines lines = Except.ok [] := by
  induction lines with
  | nil => exact parseLines_nil
  | cons l ls ih =>
    rw [parseLines_skip l ls (h l (by simp))]
    exact ih (fun x hx => h x (by simp [hx]))

/-- If every line before a malformed timestamp line fails the heuristic,
the scan reaches the malformed line and aborts. -/
theorem parseLines_abort (pre : List Str) (line : Str) (rest : List Str) (e : Str)
    (hpre : ∀ p ∈ pre, isTimestampLine p = false)
    (h : isTimestampLine line = true)
    (he : parseTimestamps line = Except.error e) :
    parseLines (pre ++ line :: rest) =
      Except.error ("failed to parse subtitle block: failed to parse timestamps: ".data ++ e) := by
  induction pre with
  | nil => exact parseLines_cons_error line rest e h he
  | cons p ps ih =>
    rw [List.cons_append, parseLines_skip p _ (hpre p (by simp))]
    exact ih (fun x hx => hpre x (by simp [hx]))

/-! ## Claims -/

/-- C5: parsing the two-block sample input yields exactly two records in
source order, with start/end 1 s / 4 s and 5.5 s / 8.2 s and texts
`Hello` and `World`. -/
theorem parse_sample_two_records :
    ParseFromReader ("0:00:01.000,0:00:04.000\nHello\n\n0:00:05.500,0:00:08.200\nWorld".data) =
      Except.ok [{ StartTime := 1000000000, EndTime := 4000000000, Text := "Hello".data },
                 { StartTime := 5500000000, EndTime := 8200000000, Text := "World".data }] := by
  rfl

/-- C6: formatting the single record `{start = 1 s, end = 4 s, text = "X"}`
produces exactly `1\n00:00:01,000 --> 00:00:04,000\nX\n\n`. -/
theorem format_single_record :
    ConvertToSRT [{ StartTime := 1000000000, EndTime := 4000000000, Text := "X".data }] =
      "1\n00:00:01,000 --> 00:00:04,000\nX\n\n".data := by
  rfl

/-- C2 counterexample: on the time value `-1:00:00.000` the integer-parse
step (`strconv.Atoi`) succeeds with `-1`, and the diagnostic produced is
exactly the hours out-of-range one — contradicting the claim that a
leading `-` is rejected as a parse failure of the integer and that the
out-of-range diagnostic is never produced for such a field. -/
theorem leading_minus_range_diagnostic :
    goAtoi ("-1".data) = Except.ok (-1) ∧
    parseTime ("-1:00:00.000".data) =
      Except.error ("hours out of range (0-23): -1".data) := by
  exact ⟨rfl, rfl⟩

/-- C3 counterexample: a text line with leading and trailing spaces is
trimmed before it is stored in the record, so the record's text is not
the original line verbatim. -/
theorem text_lines_trimmed :
    ParseFromReader ("0:00:01.000,0:00:04.000\n  Hello  ".data) =
      Except.ok [{ StartTime := 1000000000, EndTime := 4000000000, Text := "Hello".data }] ∧
    "Hello".data ≠ "  Hello  ".data := by
  exact ⟨rfl, by decide⟩

/-- C10: a valid timestamp line immediately followed by a blank line or by
the end of input yields a record whose text is the empty string; parsing
continues on the remaining lines. -/
theorem timestamp_line_without_text (line : Str) (ls : List Str) (st en : Int)
    (h : isTimestampLine line = true)
    (hok : parseTimestamps line = Except.ok (st, en))
    (hblank : ls = [] ∨ ls.head? = some []) :
    parseLines (line :: ls) =
      (parseLines ls).map
        (fun subs => { StartTime := st, EndTime := en, Text := ([] : Str) } :: subs) := by
  rw [parseLines_cons_ok line ls st en h hok]
  have htake : ls.takeWhile (fun l => !l.isEmpty) = [] := by
    rcases hblank with hnil | hhead
    · simp [hnil]
    · cases ls with
      | nil => rfl
      | cons a tl =>
        simp only [List.head?] at hhead
        cases hhead
        rfl
  have hdrop : ls.dropWhile (fun l => !l.isEmpty) = ls := by
    rcases hblank with hnil | hhead
    · simp [hnil]
    · cases ls with
      | nil => rfl
      | cons a tl =>
        simp only [List.head?] at hhead
        cases hhead
        rfl
  rw [htake, hdrop]
  cases hp : parseLines ls <;> simp [Except.map, List.intercalate]

/-- Witness for C10 at a concrete input: a lone timestamp line (end of
input right after it) parses to one record with empty text. -/
theorem timestamp_line_without_text_witness :
    parseLines ["0:00:01.000,0:00:02.000".data] =
      (parseLines []).map
        (fun subs =>
          { StartTime := 1000000000, EndTime := 2000000000, Text := ([] : Str) } :: subs) :=
  timestamp_line_without_text ("0:00:01.000,0:00:02.000".data) [] 1000000000 2000000000
    (by rfl) (by rfl) (Or.inl rfl)

/-- C8: a non-blank line failing the timestamp heuristic (no `,` or no `:`)
outside a block is silently skipped: it raises no error, starts no block
and contributes to no record; an input whose scanned-and-trimmed lines all
fail the heuristic parses to the empty record list. -/
theorem stray_lines_skipped :
    (∀ (line : Str) (rest : List Str), line ≠ [] → isTimestampLine line = false →
       parseLines (line :: rest) = parseLines rest) ∧
    (∀ lines : List Str, (∀ l ∈ lines, isTimestampLine l = false) →
       parseLines lines = Except.ok []) ∧
    (∀ s : Str, (∀ l ∈ (scanLines s).map trimSpace, isTimestampLine l = false) →
       ParseFromReader s = Except.ok []) := by
  refine ⟨fun line rest _ h => parseLines_skip line rest h, parseLines_all_skip, ?_⟩
  intro s h
  exact parseLines_all_skip _ h

/-- Witness for C8 at a concrete input: an input of two non-blank,
non-timestamp lines parses to the empty record list. -/
theorem stray_lines_skipped_witness :
    parseLines ["hello".data, "world:".data] = parseLines ["world:".data] ∧
    ParseFromReader ("hello\nworld".data) = Except.ok [] :=
  ⟨stray_lines_skipped.1 ("hello".data) ["world:".data] (by decide) (by rfl),
   stray_lines_skipped.2.2 ("hello\nworld".data) (by decide)⟩

/-- The scan of `ParseFromReader`, run on the given (already-trimmed)
lines, reaches a timestamp line whose timestamps fail to parse with the
diagnostic `e`.  The three constructors are the scan's three possible
steps (convert.go:109-126): the current line is such a malformed
timestamp line; the current line is skipped (blank, or failing the
heuristic); or the current line starts a successfully parsed block and
the scan resumes after the block's text lines. -/
inductive ReachesBadLine : List Str → Str → Prop where
  | here (line : Str) (rest : List Str) (e : Str) :
      isTimestampLine line = true → parseTimestamps line = Except.error e →
      ReachesBadLine (line :: rest) e
  | skip (line : Str) (rest : List Str) (e : Str) :
      isTimestampLine line = false → ReachesBadLine rest e →
      ReachesBadLine (line :: rest) e
  | block (line : Str) (rest : List Str) (st en : Int) (e : Str) :
      isTimestampLine line = true → parseTimestamps line = Except.ok (st, en) →
      ReachesBadLine (rest.dropWhile (fun l => !l.isEmpty)) e →
      ReachesBadLine (line :: rest) e

/-- If the scan reaches a malformed timestamp line, the whole scan returns
the wrapped diagnostic of that line — the blocks parsed before it are
discarded. -/
theorem parseLines_reaches_bad (lines : List Str) (e : Str)
    (hreach : ReachesBadLine lines e) :
    parseLines lines =
      Except.error ("failed to parse subtitle block: failed to parse timestamps: ".data ++ e) := by
  induction hreach with
  | here line rest e h he => exact parseLines_cons_error line rest e h he
  | skip line rest e h _ ih => rw [parseLines_skip line rest h]; exact ih
  | block line rest st en e h hok _ ih =>
    rw [parseLines_cons_ok line rest st en h hok, ih]

/-- C4: for every input whose scan reaches a timestamp line whose
timestamps fail to parse (after any number of skipped lines and
successfully parsed blocks), the whole invocation aborts with the wrapped
diagnostic of the failing validation, and no record list at all is
returned — the blocks parsed before the failure yield no partial result. -/
theorem malformed_timestamp_aborts (s : Str) (e : Str)
    (hreach : ReachesBadLine ((scanLines s).map trimSpace) e) :
    ParseFromReader s =
      Except.error ("failed to parse subtitle block: failed to parse timestamps: ".data ++ e) ∧
    ∀ subs, ParseFromReader s ≠ Except.ok subs := by
  have habort : ParseFromReader s =
      Except.error ("failed to parse subtitle block: failed to parse timestamps: ".data ++ e) :=
    parseLines_reaches_bad ((scanLines s).map trimSpace) e hreach
  refine ⟨habort, fun subs hok => ?_⟩
  rw [habort] at hok
  exact Except.noConfusion hok

/-- Witness for C4 at a concrete input: a well-formed first block
(1 s → 4 s, `Hello`) followed by a blank line and a timestamp line with
minutes 60 aborts the whole parse with the minutes range diagnostic; the
already-parsed first block yields no partial result. -/
theorem malformed_timestamp_aborts_witness :
    ParseFromReader ("0:00:01.000,0:00:04.000\nHello\n\n0:60:00.000,0:00:05.000\nX".data) =
      Except.error ("failed to parse subtitle block: failed to parse timestamps: ".data ++
                    "failed to parse start time: minutes out of range (0-59): 60".data) ∧
    ∀ subs,
      ParseFromReader ("0:00:01.000,0:00:04.000\nHello\n\n0:60:00.000,0:00:05.000\nX".data) ≠
        Except.ok subs :=
  malformed_timestamp_aborts
    ("0:00:01.000,0:00:04.000\nHello\n\n0:60:00.000,0:00:05.000\nX".data)
    ("failed to parse start time: minutes out of range (0-59): 60".data)
    (ReachesBadLine.block ("0:00:01.000,0:00:04.000".data)
      ["Hello".data, ([] : Str), "0:60:00.000,0:00:05.000".data, "X".data]
      1000000000 4000000000
      ("failed to parse start time: minutes out of range (0-59): 60".data)
      (by rfl) (by rfl)
      (ReachesBadLine.skip ([] : Str) ["0:60:00.000,0:00:05.000".data, "X".data]
        ("failed to parse start time: minutes out of range (0-59): 60".data)
        (by rfl)
        (ReachesBadLine.here ("0:60:00.000,0:00:05.000".data) ["X".data]
          ("failed to parse start time: minutes out of range (0-59): 60".data)
          (by rfl) (by rfl))))

/-- The formatter's loop, started at index `k`, emits the blocks of the
records in input order with indices `k, k+1, ...`. -/
theorem convertLoop_eq (subs : List Subtitle) :
    ∀ k : Nat, convertLoop k subs =
      (List.ofFn (fun i : Fin subs.length => srtBlock (k + i.val) (subs.get i))).flatten := by
  induction subs with
  | nil => intro k; simp [convertLoop]
  | cons sub rest ih =>
    intro k
    simp only [convertLoop, List.length_cons, List.ofFn_succ, List.flatten, ih (k + 1)]
    congr 1
    have hfun : (fun i : Fin rest.length => srtBlock (k + 1 + i.val) (rest.get i)) =
        (fun i : Fin rest.length => srtBlock (k + i.succ.val) ((sub :: rest).get i.succ)) := by
      funext i
      show srtBlock (k + 1 + i.val) (rest.get i) = srtBlock (k + (i.val + 1)) (rest.get i)
      congr 1
      omega
    rw [hfun]

/-- C7: for an input list of N records the formatter emits exactly the N
blocks of the records in input order (the block at position i is built
from record i; no reordering, no cross-record computation), and the block
at 0-based position i starts with the sequence number i+1 followed by a
newline. -/
theorem formatter_sequence_and_order (subs : List Subtitle) :
    ConvertToSRT subs =
      (List.ofFn (fun i : Fin subs.length => srtBlock i.val (subs.get i))).flatten ∧
    ∀ i : Fin subs.length, ∃ blockTail : Str,
      srtBlock i.val (subs.get i) = intToStr ((i.val : Int) + 1) ++ '\n' :: blockTail := by
  constructor
  · have h := convertLoop_eq subs 0
    simpa [ConvertToSRT] using h
  · intro i
    exact ⟨_, rfl⟩

/-! ## Decimal rendering and re-parsing lemmas -/

theorem digitChar_isDigit (d : Nat) : (digitChar d).isDigit = true := by
  unfold digitChar
  split <;> decide

theorem digitChar_toNat (d : Nat) (hd : d < 10) : (digitChar d).toNat = 48 + d := by
  interval_cases d <;> decide

theorem natToDigitsAux_fuel :
    ∀ (f1 : Nat) (n f2 : Nat), n < f1 → n < f2 →
      natToDigitsAux f1 n = natToDigitsAux f2 n := by
  intro f1
  induction f1 with
  | zero => intro n f2 h1 _; omega
  | succ g ih =>
    intro n f2 h1 h2
    cases f2 with
    | zero => omega
    | succ g2 =>
      simp only [natToDigitsAux]
      by_cases hn : n < 10
      · simp [hn]
      · have hrec : n / 10 < g := by omega
        have hrec2 : n / 10 < g2 := by omega
        simp only [hn, if_false]
        rw [ih (n / 10) g2 hrec hrec2]

theorem natToDigits_eq (n : Nat) :
    natToDigits n =
      if n < 10 then [digitChar n]
      else natToDigits (n / 10) ++ [digitChar (n % 10)] := by
  unfold natToDigits
  rw [show natToDigitsAux (n + 1) n =
        if n < 10 then [digitChar n]
        else natToDigitsAux n (n / 10) ++ [digitChar (n % 10)] from rfl]
  by_cases hn : n < 10
  · simp [hn]
  · simp only [hn, if_false]
    congr 1
    show natToDigitsAux n (n / 10) = natToDigitsAux (n / 10 + 1) (n / 10)
    exact natToDigitsAux_fuel n (n / 10) (n / 10 + 1) (by omega) (by omega)

theorem natToDigits_ne_nil (n : Nat) : natToDigits n ≠ [] := by
  rw [natToDigits_eq]
  split
  · simp
  · simp

theorem natToDigits_all_isDigit (n : Nat) :
    (natToDigits n).all Char.isDigit = true := by
  induction n using Nat.strong_induction_on with
  | _ n ih =>
    rw [natToDigits_eq]
    by_cases hn : n < 10
    · simp [hn, digitChar_isDigit]
    · have hlt : n / 10 < n := by omega
      simp [hn, List.all_append, ih (n / 10) hlt, digitChar_isDigit]

theorem digitsToNat_append_singleton (s : Str) (c : Char) :
    digitsToNat (s ++ [c]) = digitsToNat s * 10 + (c.toNat - 48) := by
  simp [digitsToNat, List.foldl_append]

theorem digitsToNat_natToDigits (n : Nat) : digitsToNat (natToDigits n) = n := by
  induction n using Nat.strong_induction_on with
  | _ n ih =>
    rw [natToDigits_eq]
    by_cases hn : n < 10
    · simp only [hn, if_true, digitsToNat, List.foldl]
      rw [digitChar_toNat n hn]
      omega
    · have hlt : n / 10 < n := by omega
      simp only [hn, if_false]
      rw [digitsToNat_append_singleton, ih (n / 10) hlt,
          digitChar_toNat (n % 10) (by omega)]
      omega

theorem digitsToNat_replicate_zero (k : Nat) (s : Str) :
    digitsToNat (List.replicate k '0' ++ s) = digitsToNat s := by
  induction k with
  | zero => simp
  | succ j ih =>
    rw [List.replicate_succ, List.cons_append]
    simpa [digitsToNat] using ih

theorem goAtoi_digits (s : Str) (hne : s ≠ []) (hdig : s.all Char.isDigit = true) :
    goAtoi s = Except.ok ((digitsToNat s : Nat) : Int) := by
  cases s with
  | nil => exact absurd rfl hne
  | cons c rest =>
    have hc : c.isDigit = true := by
      simp only [List.all_cons, Bool.and_eq_true] at hdig
      exact hdig.1
    have hplus : ¬(c = '+') := by
      intro h; subst h; simp [Char.isDigit] at hc
    have hminus : ¬(c = '-') := by
      intro h; subst h; simp [Char.isDigit] at hc
    simp only [goAtoi, hplus, if_false, hminus, hdig, if_true]

theorem padZeroInt_eq_of_nonneg (w : Nat) (i : Int) (h : 0 ≤ i) :
    padZeroInt w i =
      List.replicate (w - (natToDigits i.toNat).length) '0' ++ natToDigits i.toNat := by
  unfold padZeroInt
  rw [if_neg (by omega)]

theorem padZeroInt_all_isDigit (w : Nat) (i : Int) (h : 0 ≤ i) :
    (padZeroInt w i).all Char.isDigit = true := by
  rw [padZeroInt_eq_of_nonneg w i h]
  simp only [List.all_append, Bool.and_eq_true]
  refine ⟨?_, natToDigits_all_isDigit _⟩
  rw [List.all_eq_true]
  intro x hx
  rw [List.eq_of_mem_replicate hx]
  decide

theorem padZeroInt_ne_nil (w : Nat) (i : Int) (h : 0 ≤ i) :
    padZeroInt w i ≠ [] := by
  rw [padZeroInt_eq_of_nonneg w i h]
  intro hcon
  rcases List.append_eq_nil.mp hcon with ⟨_, hnil⟩
  exact natToDigits_ne_nil _ hnil

theorem goAtoi_padZeroInt (w : Nat) (i : Int) (h : 0 ≤ i) :
    goAtoi (padZeroInt w i) = Except.ok i := by
  rw [goAtoi_digits (padZeroInt w i) (padZeroInt_ne_nil w i h)
        (padZeroInt_all_isDigit w i h),
      padZeroInt_eq_of_nonneg w i h, digitsToNat_replicate_zero,
      digitsToNat_natToDigits, Int.toNat_of_nonneg h]

theorem padZeroInt_mem_isDigit (w : Nat) (i : Int) (h : 0 ≤ i) :
    ∀ c ∈ padZeroInt w i, c.isDigit = true := by
  have hall := padZeroInt_all_isDigit w i h
  rw [List.all_eq_true] at hall
  exact fun c hc => hall c hc

/-! ## Splitting lemmas -/

theorem splitOnChar_no_sep (sep : Char) (s : Str) (h : ∀ c ∈ s, c ≠ sep) :
    splitOnChar sep s = [s] := by
  induction s with
  | nil => rfl
  | cons c cs ih =>
    have hc : ¬(c = sep) := h c (by simp)
    have hcs := ih (fun x hx => h x (by simp [hx]))
    simp only [splitOnChar, hc, if_false, hcs]

theorem splitOnChar_append_sep (sep : Char) (a b : Str) (h : ∀ c ∈ a, c ≠ sep) :
    splitOnChar sep (a ++ sep :: b) = a :: splitOnChar sep b := by
  induction a with
  | nil => simp [splitOnChar]
  | cons c cs ih =>
    have hc : ¬(c = sep) := h c (by simp)
    have hcs := ih (fun x hx => h x (by simp [hx]))
    simp only [List.cons_append, splitOnChar, hc, if_false, List.append_eq]
    rw [hcs]

/-! ## commaToDot lemmas -/

theorem commaToDot_append (a b : Str) :
    commaToDot (a ++ b) = commaToDot a ++ commaToDot b := by
  simp [commaToDot]

theorem commaToDot_cons (c : Char) (s : Str) :
    commaToDot (c :: s) = (if c = ',' then '.' else c) :: commaToDot s := rfl

theorem commaToDot_no_comma (s : Str) (h : ∀ c ∈ s, c ≠ ',') :
    commaToDot s = s := by
  induction s with
  | nil => rfl
  | cons c cs ih =>
    rw [commaToDot_cons, if_neg (h c (by simp)), ih (fun x hx => h x (by simp [hx]))]

theorem digits_ne_char (bad : Char) (hbad : bad.isDigit = false) (s : Str)
    (hs : ∀ c ∈ s, c.isDigit = true) : ∀ c ∈ s, c ≠ bad := by
  intro c hc hceq
  subst hceq
  rw [hs c hc] at hbad
  exact Bool.noConfusion hbad

/-- On a duration assembled from in-range fields, the four divisions of
`formatSRTTime` recover exactly the fields. -/
theorem formatSRTTime_fields (h m s ms : Int)
    (h0 : 0 ≤ h) (h1 : h ≤ 23) (h2 : 0 ≤ m) (h3 : m ≤ 59)
    (h4 : 0 ≤ s) (h5 : s ≤ 59) (h6 : 0 ≤ ms) (h7 : ms ≤ 999) :
    formatSRTTime (h * 3600000000000 + m * 60000000000 + s * 1000000000 + ms * 1000000) =
      padZeroInt 2 h ++ ':' ::
        (padZeroInt 2 m ++ ':' :: (padZeroInt 2 s ++ ',' :: padZeroInt 3 ms)) := by
  have hd : (0 : Int) ≤ h * 3600000000000 + m * 60000000000 + s * 1000000000 + ms * 1000000 := by
    omega
  have e1 : (h * 3600000000000 + m * 60000000000 + s * 1000000000 + ms * 1000000).tdiv
      3600000000000 = h := by
    rw [Int.tdiv_eq_ediv hd (by norm_num)]
    omega
  have e2 : ((h * 3600000000000 + m * 60000000000 + s * 1000000000 + ms * 1000000).tdiv
      60000000000).tmod 60 = m := by
    rw [Int.tdiv_eq_ediv hd (by norm_num),
        Int.tmod_eq_emod (Int.ediv_nonneg hd (by norm_num)) (by norm_num)]
    omega
  have e3 : ((h * 3600000000000 + m * 60000000000 + s * 1000000000 + ms * 1000000).tdiv
      1000000000).tmod 60 = s := by
    rw [Int.tdiv_eq_ediv hd (by norm_num),
        Int.tmod_eq_emod (Int.ediv_nonneg hd (by norm_num)) (by norm_num)]
    omega
  have e4 : ((h * 3600000000000 + m * 60000000000 + s * 1000000000 + ms * 1000000).tdiv
      1000000).tmod 1000 = ms := by
    rw [Int.tdiv_eq_ediv hd (by norm_num),
        Int.tmod_eq_emod (Int.ediv_nonneg hd (by norm_num)) (by norm_num)]
    omega
  unfold formatSRTTime
  rw [e1, e2, e3, e4]

/-- Re-parsing the four numeric fields of a formatted in-range duration
recovers the duration exactly. -/
theorem parseTime_roundtrip (d : Int) (hd : GoodTime d) :
    parseTime (commaToDot (formatSRTTime d)) = Except.ok d := by
  obtain ⟨h, m, s, ms, h0, h1, h2, h3, h4, h5, h6, h7, rfl⟩ := hd
  rw [formatSRTTime_fields h m s ms h0 h1 h2 h3 h4 h5 h6 h7]
  have hdig2h := padZeroInt_mem_isDigit 2 h h0
  have hdig2m := padZeroInt_mem_isDigit 2 m h2
  have hdig2s := padZeroInt_mem_isDigit 2 s h4
  have hdig3 := padZeroInt_mem_isDigit 3 ms h6
  have hcomma : commaToDot (padZeroInt 2 h ++ ':' ::
      (padZeroInt 2 m ++ ':' :: (padZeroInt 2 s ++ ',' :: padZeroInt 3 ms))) =
      padZeroInt 2 h ++ ':' ::
        (padZeroInt 2 m ++ ':' :: (padZeroInt 2 s ++ '.' :: padZeroInt 3 ms)) := by
    rw [commaToDot_append, commaToDot_cons, if_neg (by decide),
        commaToDot_append, commaToDot_cons, if_neg (by decide),
        commaToDot_append, commaToDot_cons, if_pos rfl,
        commaToDot_no_comma _ (digits_ne_char ',' (by decide) _ hdig2h),
        commaToDot_no_comma _ (digits_ne_char ',' (by decide) _ hdig2m),
        commaToDot_no_comma _ (digits_ne_char ',' (by decide) _ hdig2s),
        commaToDot_no_comma _ (digits_ne_char ',' (by decide) _ hdig3)]
  rw [hcomma]
  have hnc3 : ∀ c ∈ padZeroInt 2 s ++ '.' :: padZeroInt 3 ms, c ≠ ':' := by
    intro c hc
    rcases List.mem_append.mp hc with hc1 | hc2
    · exact digits_ne_char ':' (by decide) _ hdig2s c hc1
    · rcases List.mem_cons.mp hc2 with rfl | hc3
      · decide
      · exact digits_ne_char ':' (by decide) _ hdig3 c hc3
  have hsplit1 : splitOnChar ':' (padZeroInt 2 h ++ ':' ::
      (padZeroInt 2 m ++ ':' :: (padZeroInt 2 s ++ '.' :: padZeroInt 3 ms))) =
      [padZeroInt 2 h, padZeroInt 2 m, padZeroInt 2 s ++ '.' :: padZeroInt 3 ms] := by
    rw [splitOnChar_append_sep ':' _ _ (digits_ne_char ':' (by decide) _ hdig2h),
        splitOnChar_append_sep ':' _ _ (digits_ne_char ':' (by decide) _ hdig2m),
        splitOnChar_no_sep ':' _ hnc3]
  have hsplit2 : splitOnChar '.' (padZeroInt 2 s ++ '.' :: padZeroInt 3 ms) =
      [padZeroInt 2 s, padZeroInt 3 ms] := by
    rw [splitOnChar_append_sep '.' _ _ (digits_ne_char '.' (by decide) _ hdig2s),
        splitOnChar_no_sep '.' _ (digits_ne_char '.' (by decide) _ hdig3)]
  unfold parseTime
  simp only [hsplit1, goAtoi_padZeroInt 2 h h0, goAtoi_padZeroInt 2 m h2,
             goAtoi_padZeroInt 2 s h4, goAtoi_padZeroInt 3 ms h6, hsplit2]
  rw [if_neg (by omega), if_neg (by omega), if_neg (by omega), if_neg (by omega)]

/-- Inversion: a successful `parseTime` yields a duration assembled from
in-range fields. -/
theorem parseTime_good {str : Str} {d : Int} (hp : parseTime str = Except.ok d) :
    GoodTime d := by
  unfold parseTime at hp
  split at hp
  case _ p0 p1 p2 =>
    split at hp
    case _ => exact Except.noConfusion hp
    case _ hours hh =>
      split at hp
      case _ => exact Except.noConfusion hp
      case _ hrange1 =>
        split at hp
        case _ => exact Except.noConfusion hp
        case _ minutes hm =>
          split at hp
          case _ => exact Except.noConfusion hp
          case _ hrange2 =>
            split at hp
            case _ s0 s1 =>
              split at hp
              case _ => exact Except.noConfusion hp
              case _ seconds hs =>
                split at hp
                case _ => exact Except.noConfusion hp
                case _ hrange3 =>
                  split at hp
                  case _ => exact Except.noConfusion hp
                  case _ milliseconds hms =>
                    split at hp
                    case _ => exact Except.noConfusion hp
                    case _ hrange4 =>
                      injection hp with hp
                      exact ⟨hours, minutes, seconds, milliseconds,
                        by omega, by omega, by omega, by omega,
                        by omega, by omega, by omega, by omega, hp.symm⟩
            case _ => exact Except.noConfusion hp
  case _ => exact Except.noConfusion hp

/-- Inversion: a successful `parseTimestamps` yields two in-range
durations. -/
theorem parseTimestamps_good {line : Str} {st en : Int}
    (hp : parseTimestamps line = Except.ok (st, en)) :
    GoodTime st ∧ GoodTime en := by
  unfold parseTimestamps at hp
  split at hp
  case _ p0 p1 =>
    split at hp
    case _ => exact Except.noConfusion hp
    case _ stv hst =>
      split at hp
      case _ => exact Except.noConfusion hp
      case _ env hen =>
        injection hp with hp
        obtain ⟨rfl, rfl⟩ := Prod.mk.injEq .. ▸ Prod.ext_iff.mp hp.symm
        exact ⟨parseTime_good hst, parseTime_good hen⟩
  case _ => exact Except.noConfusion hp

/-- Every record produced by a successful scan has in-range start and end
durations. -/
theorem parseLines_good_aux :
    ∀ (n : Nat) (lines : List Str), lines.length ≤ n →
      ∀ subs, parseLines lines = Except.ok subs →
        ∀ sub ∈ subs, GoodTime sub.StartTime ∧ GoodTime sub.EndTime := by
  intro n
  induction n with
  | zero =>
    intro lines hlen subs hp sub hmem
    have hnil : lines = [] := by
      cases lines
      · rfl
      · simp at hlen
    subst hnil
    rw [parseLines_nil] at hp
    injection hp with hp
    subst hp
    simp at hmem
  | succ k ih =>
    intro lines hlen subs hp sub hmem
    cases lines with
    | nil =>
      rw [parseLines_nil] at hp
      injection hp with hp
      subst hp
      simp at hmem
    | cons line rest =>
      simp only [List.length_cons] at hlen
      by_cases hts : isTimestampLine line = true
      · cases hpt : parseTimestamps line with
        | error e =>
          rw [parseLines_cons_error line rest e hts hpt] at hp
          exact Except.noConfusion hp
        | ok p =>
          obtain ⟨st, en⟩ := p
          rw [parseLines_cons_ok line rest st en hts hpt] at hp
          cases hrec : parseLines (rest.dropWhile (fun l => !l.isEmpty)) with
          | error e =>
            rw [hrec] at hp
            exact Except.noConfusion hp
          | ok tailSubs =>
            rw [hrec] at hp
            injection hp with hp
            subst hp
            rcases List.mem_cons.mp hmem with rfl | htail
            · exact parseTimestamps_good hpt
            · have hdlen : (rest.dropWhile (fun l => !l.isEmpty)).length ≤ k := by
                have := length_dropWhile_le (fun l => !l.isEmpty) rest
                omega
              exact ih (rest.dropWhile (fun l => !l.isEmpty)) hdlen tailSubs hrec sub htail
      · rw [parseLines_skip line rest (by simpa using hts)] at hp
        exact ih rest (by omega) subs hp sub hmem

/-- C1: for every input that parses successfully, rendering each record's
start and end with `formatSRTTime` and re-parsing the four numeric fields
(after turning the SRT `,` delimiter back into the SBV `.`) recovers the
record's start and end values exactly. -/
theorem time_value_roundtrip (s : Str) (subs : List Subtitle)
    (hp : ParseFromReader s = Except.ok subs) :
    ∀ sub ∈ subs,
      parseTime (commaToDot (formatSRTTime sub.StartTime)) = Except.ok sub.StartTime ∧
      parseTime (commaToDot (formatSRTTime sub.EndTime)) = Except.ok sub.EndTime := by
  intro sub hmem
  have hg := parseLines_good_aux ((scanLines s).map trimSpace).length
    ((scanLines s).map trimSpace) le_rfl subs hp sub hmem
  exact ⟨parseTime_roundtrip _ hg.1, parseTime_roundtrip _ hg.2⟩

/-- Witness for C1 at a concrete input: the record 5.5 s → 8.2 s formats to
`00:00:05,500` / `00:00:08,200` and re-parses to the same durations. -/
theorem time_value_roundtrip_witness :
    parseTime (commaToDot (formatSRTTime 5500000000)) = Except.ok 5500000000 ∧
    parseTime (commaToDot (formatSRTTime 8200000000)) = Except.ok 8200000000 :=
  time_value_roundtrip ("0:00:05.500,0:00:08.200\nWorld".data)
    [{ StartTime := 5500000000, EndTime := 8200000000, Text := "World".data }] rfl
    { StartTime := 5500000000, EndTime := 8200000000, Text := "World".data } (by simp)

/-- C2 amended: a field with a leading `-` is parsed successfully by the
integer-parse step (`strconv.Atoi` accepts negative integers); a negative
value is then rejected by the range check, producing exactly the
out-of-range diagnostic for that field, so the line still fails to parse. -/
theorem leading_minus_rejected_by_range_check (ds : Str) (hne : ds ≠ [])
    (hdig : ds.all Char.isDigit = true) (hpos : 0 < digitsToNat ds) :
    goAtoi ('-' :: ds) = Except.ok (-(digitsToNat ds : Int)) ∧
    parseTime (('-' :: ds) ++ ":00:00.000".data) =
      Except.error ("hours out of range (0-23): ".data ++
                    intToStr (-(digitsToNat ds : Int))) := by
  have hatoi : goAtoi ('-' :: ds) = Except.ok (-(digitsToNat ds : Int)) := by
    simp [goAtoi, hne, hdig]
  refine ⟨hatoi, ?_⟩
  have hshape : ('-' :: ds) ++ ":00:00.000".data =
      ('-' :: ds) ++ ':' :: ("00".data ++ ':' :: "00.000".data) := rfl
  rw [hshape]
  have hnc : ∀ c ∈ '-' :: ds, c ≠ ':' := by
    intro c hc
    rcases List.mem_cons.mp hc with rfl | hc2
    · decide
    · exact digits_ne_char ':' (by decide) ds
        (fun x hx => List.all_eq_true.mp hdig x hx) c hc2
  have hs1 : splitOnChar ':' (('-' :: ds) ++ ':' :: ("00".data ++ ':' :: "00.000".data)) =
      ['-' :: ds, "00".data, "00.000".data] := by
    rw [splitOnChar_append_sep ':' _ _ hnc,
        splitOnChar_append_sep ':' _ _ (by decide),
        splitOnChar_no_sep ':' _ (by decide)]
  unfold parseTime
  simp only [hs1, hatoi]
  rw [if_pos (Or.inl (by omega))]

/-- Witness for the amended C2 at the concrete field `-1`: the integer
parse succeeds with `-1` and the hours out-of-range diagnostic is
emitted. -/
theorem leading_minus_rejected_by_range_check_witness :
    goAtoi ('-' :: "1".data) = Except.ok (-(digitsToNat ("1".data) : Int)) ∧
    parseTime (('-' :: "1".data) ++ ":00:00.000".data) =
      Except.error ("hours out of range (0-23): ".data ++
                    intToStr (-(digitsToNat ("1".data) : Int))) :=
  leading_minus_rejected_by_range_check ("1".data) (by decide) (by decide) (by decide)

/-- C3 amended: a record's text is exactly the block's (scan-time trimmed)
text lines joined by single newlines, in order, with the block delimited
by the following blank line; block assembly itself copies the lines
verbatim and the scan continues after the block. -/
theorem block_text_joined_verbatim (line : Str) (ls : List Str) (st en : Int)
    (subs : List Subtitle)
    (h : isTimestampLine line = true)
    (hok : parseTimestamps line = Except.ok (st, en))
    (hp : parseLines (line :: ls) = Except.ok subs) :
    ∃ rest, subs = Subtitle.mk st en
        (List.intercalate ['\n'] (ls.takeWhile (fun l => !l.isEmpty))) :: rest ∧
      parseLines (ls.dropWhile (fun l => !l.isEmpty)) = Except.ok rest := by
  rw [parseLines_cons_ok line ls st en h hok] at hp
  cases hrec : parseLines (ls.dropWhile (fun l => !l.isEmpty)) with
  | error e =>
    rw [hrec] at hp
    exact Except.noConfusion hp
  | ok tailSubs =>
    rw [hrec] at hp
    injection hp with hp
    exact ⟨tailSubs, hp.symm, rfl⟩

/-- Witness for the amended C3 at a concrete two-line block. -/
theorem block_text_joined_verbatim_witness :
    ∃ rest,
      [Subtitle.mk 1000000000 4000000000 ("a b\nc".data)] =
        Subtitle.mk 1000000000 4000000000
          (List.intercalate ['\n']
            ((["a b".data, "c".data] : List Str).takeWhile (fun l => !l.isEmpty))) :: rest ∧
      parseLines ((["a b".data, "c".data] : List Str).dropWhile (fun l => !l.isEmpty)) =
        Except.ok rest :=
  block_text_joined_verbatim ("0:00:01.000,0:00:04.000".data)
    ["a b".data, "c".data] 1000000000 4000000000
    [Subtitle.mk 1000000000 4000000000 ("a b\nc".data)]
    (by rfl) (by rfl) (by rfl)

/-- C9: the millisecond subfield is read as a plain integer, whatever its
digit width: `0:00:01.5` means 1 s + 5 ms, `0:00:01.0050` means
1 s + 50 ms, and in general any all-digit subfield whose value is at most
999 is accepted with that value as milliseconds. -/
theorem milliseconds_plain_integer :
    parseTime ("0:00:01.5".data) = Except.ok 1005000000 ∧
    parseTime ("0:00:01.0050".data) = Except.ok 1050000000 ∧
    ∀ ds : Str, ds ≠ [] → ds.all Char.isDigit = true → digitsToNat ds ≤ 999 →
      parseTime ("0:00:01.".data ++ ds) =
        Except.ok (1000000000 + (digitsToNat ds : Int) * 1000000) := by
  refine ⟨rfl, rfl, ?_⟩
  intro ds hne hdig hle
  have hmem : ∀ c ∈ ds, c.isDigit = true := fun c hc => List.all_eq_true.mp hdig c hc
  have hshape : "0:00:01.".data ++ ds =
      ['0'] ++ ':' :: ("00".data ++ ':' :: ("01".data ++ '.' :: ds)) := rfl
  rw [hshape]
  have hnc : ∀ c ∈ "01".data ++ '.' :: ds, c ≠ ':' := by
    intro c hc
    rcases List.mem_append.mp hc with hc1 | hc2
    · have : c = '0' ∨ c = '1' := by simpa using hc1
      rcases this with rfl | rfl <;> decide
    · rcases List.mem_cons.mp hc2 with rfl | hc3
      · decide
      · exact digits_ne_char ':' (by decide) ds hmem c hc3
  have hs1 : splitOnChar ':' (['0'] ++ ':' :: ("00".data ++ ':' :: ("01".data ++ '.' :: ds))) =
      [['0'], "00".data, "01".data ++ '.' :: ds] := by
    rw [splitOnChar_append_sep ':' _ _ (by decide),
        splitOnChar_append_sep ':' _ _ (by decide),
        splitOnChar_no_sep ':' _ hnc]
  have hs2 : splitOnChar '.' ("01".data ++ '.' :: ds) = ["01".data, ds] := by
    rw [splitOnChar_append_sep '.' _ _ (by decide),
        splitOnChar_no_sep '.' _ (digits_ne_char '.' (by decide) ds hmem)]
  unfold parseTime
  simp only [hs1, hs2,
             show goAtoi ['0'] = Except.ok (0 : Int) from rfl,
             show goAtoi ("00".data) = Except.ok (0 : Int) from rfl,
             show goAtoi ("01".data) = Except.ok (1 : Int) from rfl,
             goAtoi_digits ds hne hdig]
  rw [if_neg (by norm_num), if_neg (by norm_num), if_neg (by norm_num),
      if_neg (by omega)]
  exact congrArg Except.ok (by omega)

/-- Witness for C9's general clause at the one-digit subfield `5`. -/
theorem milliseconds_plain_integer_witness :
    parseTime ("0:00:01.".data ++ ['5']) =
      Except.ok (1000000000 + (digitsToNat ['5'] : Int) * 1000000) :=
  milliseconds_plain_integer.2.2 ['5'] (by decide) (by decide) (by decide)

end SbvToSrt
